import Mathlib

set_option maxRecDepth 10000

/-!
Verification development for a natural-language-to-MongoDB chat agent
(`mongo_chat_agent.py`, `dynamic_query_generator.py`).

The Python sources are shallowly embedded below: documents and query
arguments become the inductive type `QVal`; Python string operations
(`in`, `.lower()`, `str()`, slicing, `find`/`rfind`) become executable
functions on `String`/`List Char`; the bracket-balancing scan, the
`re.sub` bare-key rewrite, `json.loads` and `ast.literal_eval` become
fueled recursive-descent functions; the MongoDB driver, the embedding
model and the Ollama LLM service are external collaborators and enter
only as parameters (stored documents, similarity scores, live sample
fields).
-/

/-! ## String utilities (Python `in`, substring containment) -/

/-- Boolean test that `needle` is a prefix of `hay` (over character lists). -/
def charsPre : List Char → List Char → Bool
  | [], _ => true
  | _ :: _, [] => false
  | a :: as, b :: bs => a = b && charsPre as bs

/-- Boolean test that `needle` occurs as a contiguous substring of `hay`,
the semantics of Python's `needle in hay`. -/
def charsHas : List Char → List Char → Bool
  | [], needle => needle.isEmpty
  | hay@(_ :: t), needle => charsPre needle hay || charsHas t needle

/-- Python's `needle in hay` on strings. -/
def strHas (hay needle : String) : Bool :=
  charsHas hay.data needle.data

/-- ASCII lowercase of one character (Python `str.lower` on the ASCII
texts this system handles). -/
def charLower (c : Char) : Char :=
  if 'A' ≤ c && c ≤ 'Z' then Char.ofNat (c.toNat + 32) else c

/-- Python `s.lower()`. -/
def pyLower (s : String) : String :=
  ⟨s.data.map charLower⟩

/-- Python's `any(w in hay for w in ws)`. -/
def anyHas (hay : String) (ws : List String) : Bool :=
  ws.any (fun w => strHas hay w)

/-- Python slice `l[a:b]` for `0 ≤ a, b` (empty when `b ≤ a`). -/
def pySlice (l : List Char) (a b : Nat) : List Char :=
  (l.drop a).take (b - a)

/-- Index of the first occurrence of `c` (Python `s.find(c)` when `c` occurs). -/
def idxOfC : List Char → Char → Nat
  | [], _ => 0
  | x :: r, c => if x = c then 0 else idxOfC r c + 1

/-- Membership of a character, `c in s` in Python. -/
def hasChar (l : List Char) (c : Char) : Bool :=
  l.any (fun x => x = c)

/-- Python `s.rfind(c) + 1`: one past the last occurrence of `c`, or `0`
when `c` does not occur (`rfind` returns `-1`). -/
def rfindP1 (l : List Char) (c : Char) : Nat :=
  go l 0 0
where
  go : List Char → Nat → Nat → Nat
    | [], _, acc => acc
    | x :: r, i, acc => go r (i + 1) (if x = c then i + 1 else acc)

/-! ## Document / query values

`QVal` models the Python values flowing through the agent: JSON-style
scalars, containers, the driver's native `ObjectId`, and
`datetime.datetime(y, m, d)` (midnight, as built by the query
generator's year filter). -/

inductive QVal where
  | null
  | bool (b : Bool)
  | num (n : Int)
  | str (s : String)
  | oid (hex : String)
  | dt (y m d : Nat)
  | arr (xs : List QVal)
  | obj (fields : List (String × QVal))

mutual

/-- Python `repr` of a value, which is also `str()` for containers: this is
what `str(query)` produces in the safety gate. Subset: strings are assumed
to need no escaping (true for every value this development evaluates). -/
def pyRepr : QVal → String
  | .null => "None"
  | .bool true => "True"
  | .bool false => "False"
  | .num n => toString n
  | .str s => "\x27" ++ s ++ "\x27"
  | .oid h => "ObjectId(\x27" ++ h ++ "\x27)"
  | .dt y m d => "datetime.datetime(" ++ toString y ++ ", " ++ toString m ++ ", " ++ toString d ++ ", 0, 0)"
  | .arr xs => "[" ++ pyReprList xs ++ "]"
  | .obj fs => "\x7b" ++ pyReprFields fs ++ "\x7d"

def pyReprList : List QVal → String
  | [] => ""
  | [x] => pyRepr x
  | x :: xs => pyRepr x ++ ", " ++ pyReprList xs

def pyReprFields : List (String × QVal) → String
  | [] => ""
  | [(k, v)] => "\x27" ++ k ++ "\x27: " ++ pyRepr v
  | (k, v) :: fs => "\x27" ++ k ++ "\x27: " ++ pyRepr v ++ ", " ++ pyReprFields fs

end

/-- Python `str()` of a value: differs from `repr` on strings and ObjectIds,
the two cases `str(doc[_id])` reaches. -/
def pyStrVal : QVal → String
  | .str s => s
  | .oid h => h
  | v => pyRepr v

mutual

/-- Whether a value contains an `ObjectId` anywhere inside it. -/
def containsOid : QVal → Bool
  | .oid _ => true
  | .arr xs => containsOidList xs
  | .obj fs => containsOidFields fs
  | _ => false

def containsOidList : List QVal → Bool
  | [] => false
  | x :: xs => containsOid x || containsOidList xs

def containsOidFields : List (String × QVal) → Bool
  | [] => false
  | (_, v) :: fs => containsOid v || containsOidFields fs

end

/-- First binding of key `k` in an association list (Python dict lookup;
dict keys are unique, the list model takes the first binding). -/
def lookupStr (k : String) : List (String × QVal) → Option QVal
  | [] => none
  | (a, v) :: r => if a = k then some v else lookupStr k r

/-- Python `k in d` for a dict modelled as an association list. -/
def hasKeyB (k : String) (fs : List (String × QVal)) : Bool :=
  fs.any (fun kv => kv.1 = k)

/-- Lookup of a top-level field of a document value (`none` on non-dicts). -/
def lookupDocField (k : String) : QVal → Option QVal
  | .obj fs => lookupStr k fs
  | _ => none

/-! ## Safety gate and dispatcher (`MongoDBConnector.execute_query`,
`MongoDBChatAgent.process_query` lines 608-668)

The store itself is external; what the code controls is (a) whether a
store call happens at all and (b) how results are post-processed. -/

/-- Prohibited-operation vocabulary of `execute_query` (source line 102),
verbatim including the mixed-case method names. -/
def prohibitedOps : List String :=
  ["$set", "$unset", "$push", "$pull", "deleteOne", "deleteMany", "updateOne", "updateMany", "drop"]

/-- Safety check of `execute_query`:
`any(op in str(query).lower() for op in prohibitedOps)`. -/
def modGate (s : String) : Bool :=
  prohibitedOps.any (fun op => strHas (pyLower s) op)

/-- A call into the document store, as issued by the dispatcher. -/
inductive StoreAction where
  | findCall (q : QVal)
  | countCall (q : QVal)
  | aggregateCall (p : QVal)

/-- Find path (`execute_query`): the gate runs on `str(query)` before the
store call; `none` models the `\x7berror: ...\x7d` rejection with no store call. -/
def findDispatch (q : QVal) : Option StoreAction :=
  if modGate (pyRepr q) then none else some (.findCall q)

/-- Count path (`process_query` lines 611-616): `count_documents` is called
directly, with no safety check. -/
def countDispatch (q : QVal) : Option StoreAction :=
  some (.countCall q)

/-- Aggregate path (`process_query` line 668): `aggregate` is called
directly, with no safety check. -/
def aggregateDispatch (p : QVal) : Option StoreAction :=
  some (.aggregateCall p)

/-- ObjectId-to-string conversion of the find path (`execute_query` lines
107-110): only the top-level `_id` key of each document is stringified. -/
def convertDoc : QVal → QVal
  | .obj fs =>
      if hasKeyB "_id" fs then
        .obj (fs.map (fun kv => if kv.1 = "_id" then (kv.1, .str (pyStrVal kv.2)) else kv))
      else .obj fs
  | v => v

/-- Post-processing of find results: each fetched document gets its `_id`
stringified (`fetched` models `list(collection.find(query).limit(10))`). -/
def convertIds (fetched : List QVal) : List QVal :=
  fetched.map convertDoc

/-- Post-processing of aggregate results (`process_query` line 668):
`list(db[c].aggregate(pipeline))[:10]` — a cap, no conversion at all. -/
def aggregateResults (rs : List QVal) : List QVal :=
  rs.take 10

/-- Count result document (`process_query` line 614). -/
def countResult (collection : String) (n : Nat) : List QVal :=
  [.obj [("count", .num n),
         ("description", .str ("Total documents in " ++ collection ++ " matching query"))]]

/-! ## Deterministic query compiler (`dynamic_query_generator.py`)

`extract_metadata()` lives in the external `metadata_provider` module; the
generator only reads the mapping it returns, so the metadata is a
parameter here: a list of `(collectionName, fields)` pairs, each field a
`(name, typeTag)` pair, in insertion order. -/

/-- Collection metadata: name ↦ field inventory (`fields` dict). -/
abbrev Metadata := List (String × List (String × String))

/-- Collection names in mapping order (`self.collections`). -/
def collectionsOf (md : Metadata) : List String :=
  md.map (fun p => p.1)

/-- Fields of one collection (`self.metadata[c].get('fields', {})`,
empty when the collection is unknown). -/
def fieldsOf (md : Metadata) (c : String) : List (String × String) :=
  match md.find? (fun p => p.1 = c) with
  | some p => p.2
  | none => []

/-- `DynamicQueryGenerator._find_date_fields`: fields whose type tag is
`date` or whose lowered name contains `date` or `time`, in field order. -/
def findDateFields (md : Metadata) (c : String) : List String :=
  (fieldsOf md c).filterMap (fun f =>
    if f.2 = "date" || strHas (pyLower f.1) "date" || strHas (pyLower f.1) "time"
    then some f.1 else none)

/-- Amount-vocabulary candidates of `_find_amount_field`, in priority order. -/
def amountCandidates : List String :=
  ["amount", "total", "price", "cost", "value", "revenue", "sales"]

/-- `DynamicQueryGenerator._find_amount_field`: first field (scanning
candidates in priority order, then fields in order) whose lowered name
contains the candidate. -/
def findAmountField (md : Metadata) (c : String) : Option String :=
  amountCandidates.findSome? (fun cand =>
    ((fieldsOf md c).find? (fun f => strHas (pyLower f.1) cand)).map (fun f => f.1))

/-- `DynamicQueryGenerator._has_field`. -/
def hasFieldB (md : Metadata) (c f : String) : Bool :=
  (fieldsOf md c).any (fun p => p.1 = f)

/-- Collection resolution of `DynamicQueryGenerator.analyze_question`
(the argument is the lowered question). -/
def analyzeCollections (md : Metadata) (ql : String) : List String :=
  let base :=
    if anyHas ql ["product", "products", "item", "items"] then
      if (collectionsOf md).contains "orders" then ["orders"] else []
    else if anyHas ql ["sales", "revenue", "total sales", "income"] then
      if (collectionsOf md).contains "orders" then ["orders"] else []
    else if anyHas ql ["customer", "customers", "client", "clients"] then
      if (collectionsOf md).contains "customers" then ["customers"] else []
    else []
  let withMentions := base ++ (collectionsOf md).filter (fun c => strHas ql (pyLower c))
  let withFields :=
    if withMentions.isEmpty then
      md.filterMap (fun p => if p.2.any (fun f => strHas ql (pyLower f.1)) then some p.1 else none)
    else withMentions
  if withFields.isEmpty then
    if anyHas ql ["sales", "revenue", "total", "amount", "product", "sold", "least", "most"] then
      ["orders"]
    else
      match collectionsOf md with
      | [] => ["orders"]
      | c :: _ => [c]
  else withFields

/-- `DynamicQueryGenerator._determine_intent`: the fixed keyword ladder,
first match wins (the argument is the lowered question). -/
def determineIntent (ql : String) : String :=
  if anyHas ql ["least", "worst", "lowest", "bottom"] then "min_analysis"
  else if anyHas ql ["most", "best", "highest", "top"] then "max_analysis"
  else if anyHas ql ["total sales", "total revenue", "sales total"] then "aggregate_sum"
  else if anyHas ql ["total", "sum", "sales", "revenue"] then "aggregate_sum"
  else if anyHas ql ["count", "how many", "number of"] then "count"
  else if anyHas ql ["average", "avg", "mean"] then "average"
  else if anyHas ql ["show", "list", "display", "get"] then "list"
  else if anyHas ql ["max", "maximum", "highest"] then "max"
  else if anyHas ql ["min", "minimum", "lowest"] then "min"
  else "list"

/-- Year extraction of `_extract_filters`: Python `re.search(r'20\d\x7b2\x7d', q)`,
the first (leftmost) occurrence of `2`, `0`, digit, digit, returned as the
integer `int(match.group())`. -/
def scanYear : List Char → Option Nat
  | [] => none
  | c :: rest =>
      if c = '2' then
        match rest with
        | '0' :: c3 :: c4 :: _ =>
            if c3.isDigit && c4.isDigit then
              some (2000 + 10 * (c3.toNat - 48) + (c4.toNat - 48))
            else scanYear rest
        | _ => scanYear rest
      else scanYear rest

/-- Status extraction of `_extract_filters`: completed, then pending, then
cancelled, first match in that fixed order. -/
def extractStatus (q : String) : Option String :=
  if strHas (pyLower q) "completed" then some "completed"
  else if strHas (pyLower q) "pending" then some "pending"
  else if strHas (pyLower q) "cancelled" then some "cancelled"
  else none

/-- Primary collection of `generate_query` (`analysis['collections'][0]`;
`analyzeCollections` always returns a non-empty list, so the default is
never used). -/
def primaryCollection (md : Metadata) (q : String) : String :=
  (analyzeCollections md (pyLower q)).headD "orders"

/-- Date binding of the match stage (lines 119-129): a half-open range
`[datetime(y,1,1), datetime(y+1,1,1))` on the first date field when a year
was extracted. -/
def dateBindings (md : Metadata) (q : String) : List (String × QVal) :=
  match scanYear q.data, findDateFields md (primaryCollection md q) with
  | some y, f :: _ =>
      [(f, QVal.obj [("$gte", QVal.dt y 1 1), ("$lt", QVal.dt (y + 1) 1 1)])]
  | _, _ => []

/-- Status binding of the match stage (lines 131-136): the explicit status
filter, or the implied default `completed` for the `aggregate_sum` intent,
either way only when the collection has a `status` field. -/
def statusBindings (md : Metadata) (q : String) : List (String × QVal) :=
  match extractStatus q with
  | some s => if hasFieldB md (primaryCollection md q) "status" then [("status", QVal.str s)] else []
  | none =>
      if determineIntent (pyLower q) = "aggregate_sum"
          && hasFieldB md (primaryCollection md q) "status" then
        [("status", QVal.str "completed")]
      else []

/-- Match-stage bindings of `generate_query` (lines 117-136): the date
binding, then the status binding (Python dict insertion order). -/
def matchBindings (md : Metadata) (q : String) : List (String × QVal) :=
  dateBindings md q ++ statusBindings md q

/-- The optional leading `$match` stage. -/
def matchPartOf (md : Metadata) (q : String) : List QVal :=
  let ms := matchBindings md q
  if ms.isEmpty then [] else [QVal.obj [("$match", QVal.obj ms)]]

/-- The `$sort` + `$limit` tail of the `list` intent (lines 249-253):
sort by the first date field descending, or by `_id` descending. -/
def listStages (md : Metadata) (c : String) : List QVal :=
  [(match findDateFields md c with
    | f :: _ => QVal.obj [("$sort", QVal.obj [(f, QVal.num (-1))])]
    | [] => QVal.obj [("$sort", QVal.obj [("_id", QVal.num (-1))])]),
   QVal.obj [("$limit", QVal.num 10)]]

/-- The six-stage product join of the `min_analysis`/`max_analysis`
branches (`dir` is the sort direction). -/
def productJoinStages (dir : Int) : List QVal :=
  [QVal.obj [("$group", QVal.obj
      [("_id", QVal.str "$productId"),
       ("totalSales", QVal.obj [("$sum", QVal.str "$amount")]),
       ("quantitySold", QVal.obj [("$sum", QVal.str "$quantity")])])],
   QVal.obj [("$lookup", QVal.obj
      [("from", QVal.str "products"),
       ("localField", QVal.str "_id"),
       ("foreignField", QVal.str "_id"),
       ("as", QVal.str "product")])],
   QVal.obj [("$unwind", QVal.str "$product")],
   QVal.obj [("$project", QVal.obj
      [("productName", QVal.str "$product.name"),
       ("totalSales", QVal.num 1),
       ("quantitySold", QVal.num 1)])],
   QVal.obj [("$sort", QVal.obj [("totalSales", QVal.num dir)])],
   QVal.obj [("$limit", QVal.num 10)]]

/-- Per-intent stages of `generate_query` (lines 144-253). Intents with no
dedicated branch (`max`, `min`) fall into the trailing `else` and get the
`list` stages. -/
def intentStages (md : Metadata) (ql c intent : String) : List QVal :=
  if intent = "count" then
    [QVal.obj [("$count", QVal.str "total")]]
  else if intent = "aggregate_sum" then
    match findAmountField md c with
    | some a => [QVal.obj [("$group", QVal.obj
        [("_id", QVal.null), ("total", QVal.obj [("$sum", QVal.str ("$" ++ a))])])]]
    | none => [QVal.obj [("$count", QVal.str "total")]]
  else if intent = "average" then
    match findAmountField md c with
    | some a => [QVal.obj [("$group", QVal.obj
        [("_id", QVal.null), ("average", QVal.obj [("$avg", QVal.str ("$" ++ a))])])]]
    | none => []
  else if intent = "min_analysis" then
    if anyHas ql ["product", "item"] then productJoinStages 1
    else
      match findAmountField md c with
      | some a => [QVal.obj [("$group", QVal.obj
          [("_id", QVal.null), ("min", QVal.obj [("$min", QVal.str ("$" ++ a))])])]]
      | none => []
  else if intent = "max_analysis" then
    if anyHas ql ["product", "item"] then productJoinStages (-1)
    else
      match findAmountField md c with
      | some a => [QVal.obj [("$group", QVal.obj
          [("_id", QVal.null), ("max", QVal.obj [("$max", QVal.str ("$" ++ a))])])]]
      | none => []
  else listStages md c

/-- `DynamicQueryGenerator.generate_query`: compiled pipeline and target
collection. `generate_mongo_query` serializes this with `json.dumps` and
substitutes `[\x7b"$limit": 10\x7d]` only when generation raises, which the
embedded (total) function never does. -/
def generateQuery (md : Metadata) (q : String) : List QVal × String :=
  let c := primaryCollection md q
  (matchPartOf md q ++ intentStages md (pyLower q) c (determineIntent (pyLower q)), c)

/-- Whether a stage document carries a `$group` key. -/
def hasGroupKey : QVal → Bool
  | .obj fs => fs.any (fun kv => kv.1 = "$group")
  | _ => false

/-! ## Recovery parser (`process_query` lines 546-671)

The parser isolates `db.<collection>.<op>(...)` in the model's free-form
text, extracts the bracketed argument span with a nesting counter, and
decodes it through a chain of progressively looser decoders:
`json.loads` on the bare-key-rewritten span, `json.loads` on the exact
span, `ast.literal_eval` on the exact span, then an empty default. -/

/-- JSON whitespace. -/
def isJsonWs (c : Char) : Bool :=
  c = ' ' || c = '\t' || c = '\n' || c = '\r'

/-- Python regex `\s` (ASCII range). -/
def isPyWs (c : Char) : Bool :=
  c = ' ' || c = '\t' || c = '\n' || c = '\r' || c = '\x0b' || c = '\x0c'

/-- First character of the bare-key identifier class `[a-zA-Z_$]`. -/
def isIdentStart (c : Char) : Bool :=
  c.isAlpha || c = '_' || c = '$'

/-- Continuation character of the bare-key identifier class `[a-zA-Z0-9_$]`. -/
def isIdentCont (c : Char) : Bool :=
  c.isAlpha || c.isDigit || c = '_' || c = '$'

/-- Collection-name character class `[a-zA-Z0-9_]` of the command regex. -/
def isCollChar (c : Char) : Bool :=
  c.isAlpha || c.isDigit || c = '_'

/-- Worker for the bare-key rewrite
`re.sub(r'([\x7b\s,])([a-zA-Z_$][a-zA-Z0-9_$]*)\s*:', r'\1"\2":', s)`:
left-to-right, non-overlapping, resuming after each replacement, exactly
as Python's regex engine scans. A fuel of `length + 1` always suffices
since every step consumes at least one character. -/
def fixGo : Nat → List Char → List Char
  | 0, l => l
  | _, [] => []
  | fuel + 1, c :: rest =>
      if c = '\x7b' || c = ',' || isPyWs c then
        match rest with
        | d :: _ =>
            if isIdentStart d then
              let idt := rest.takeWhile isIdentCont
              let r1 := (rest.dropWhile isIdentCont).dropWhile isPyWs
              match r1 with
              | ':' :: r3 => c :: '"' :: (idt ++ '"' :: ':' :: fixGo fuel r3)
              | _ => c :: fixGo fuel rest
            else c :: fixGo fuel rest
        | [] => [c]
      else c :: fixGo fuel rest

/-- The bare-key rewrite applied to a span (`clean_query_str` /
`clean_pipeline_str` in the source). -/
def fixBareKeys (s : String) : String :=
  ⟨fixGo (s.data.length + 1) s.data⟩

/-- Digit run to a natural number. -/
def digitsToNat (ds : List Char) : Nat :=
  ds.foldl (fun a c => a * 10 + (c.toNat - 48)) 0

/-- JSON escape map (`\uXXXX` is outside the modelled subset). -/
def jsonEsc (c : Char) : Option Char :=
  if c = '"' then some '"'
  else if c = '\\' then some '\\'
  else if c = '/' then some '/'
  else if c = 'n' then some '\n'
  else if c = 't' then some '\t'
  else if c = 'r' then some '\r'
  else if c = 'b' then some '\x08'
  else if c = 'f' then some '\x0c'
  else none

/-- Body of a JSON string after the opening quote; rejects raw control
characters and unknown escapes as `json.loads` does. -/
def jsonStrGo : List Char → List Char → Option (String × List Char)
  | [], _ => none
  | '"' :: r, acc => some (⟨acc.reverse⟩, r)
  | '\\' :: e :: r, acc =>
      match jsonEsc e with
      | some ec => jsonStrGo r (ec :: acc)
      | none => none
  | c :: r, acc => if c.toNat < 32 then none else jsonStrGo r (c :: acc)

/-- Integer literal: optional minus, digit run, no leading zeros, and not
followed by a fraction/exponent (floats are outside the modelled subset). -/
def jsonIntAfterDigits (neg : Bool) (ds rest : List Char) : Option (QVal × List Char) :=
  if ds.isEmpty then none
  else if ds.length ≥ 2 && ds.headD '0' = '0' then none
  else
    match rest with
    | '.' :: _ => none
    | 'e' :: _ => none
    | 'E' :: _ => none
    | _ => some (QVal.num (if neg then -(digitsToNat ds : Int) else (digitsToNat ds : Int)), rest)

mutual

/-- One JSON value with leading whitespace, returning the unconsumed rest
(`json.loads` subset: objects, arrays, strings, integers, `true`, `false`,
`null`). -/
def jsonVal : Nat → List Char → Option (QVal × List Char)
  | 0, _ => none
  | fuel + 1, l =>
      match l.dropWhile isJsonWs with
      | '"' :: r => (jsonStrGo r []).map (fun p => (QVal.str p.1, p.2))
      | '\x7b' :: r =>
          (match r.dropWhile isJsonWs with
           | '\x7d' :: r2 => some (QVal.obj [], r2)
           | r1 => (jsonObjBody fuel r1).map (fun p => (QVal.obj p.1, p.2)))
      | '[' :: r =>
          (match r.dropWhile isJsonWs with
           | ']' :: r2 => some (QVal.arr [], r2)
           | r1 => (jsonArrBody fuel r1).map (fun p => (QVal.arr p.1, p.2)))
      | 't' :: 'r' :: 'u' :: 'e' :: r => some (QVal.bool true, r)
      | 'f' :: 'a' :: 'l' :: 's' :: 'e' :: r => some (QVal.bool false, r)
      | 'n' :: 'u' :: 'l' :: 'l' :: r => some (QVal.null, r)
      | '-' :: r => jsonIntAfterDigits true (r.takeWhile Char.isDigit) (r.dropWhile Char.isDigit)
      | r =>
          if (r.headD ' ').isDigit then
            jsonIntAfterDigits false (r.takeWhile Char.isDigit) (r.dropWhile Char.isDigit)
          else none

/-- Object members `"k": v (, "k": v)* \x7d`, positioned at the first key. -/
def jsonObjBody : Nat → List Char → Option (List (String × QVal) × List Char)
  | 0, _ => none
  | fuel + 1, l =>
      match l with
      | '"' :: r =>
          match jsonStrGo r [] with
          | none => none
          | some (k, r1) =>
              match r1.dropWhile isJsonWs with
              | ':' :: r3 =>
                  match jsonVal fuel r3 with
                  | none => none
                  | some (v, r4) =>
                      match r4.dropWhile isJsonWs with
                      | ',' :: r6 =>
                          (jsonObjBody fuel (r6.dropWhile isJsonWs)).map
                            (fun p => ((k, v) :: p.1, p.2))
                      | '\x7d' :: r6 => some ([(k, v)], r6)
                      | _ => none
              | _ => none
      | _ => none

/-- Array elements `v (, v)* ]`, positioned at the first element. -/
def jsonArrBody : Nat → List Char → Option (List QVal × List Char)
  | 0, _ => none
  | fuel + 1, l =>
      match jsonVal fuel l with
      | none => none
      | some (v, r) =>
          match r.dropWhile isJsonWs with
          | ',' :: r1 => (jsonArrBody fuel r1).map (fun p => (v :: p.1, p.2))
          | ']' :: r1 => some ([v], r1)
          | _ => none

end

/-- `json.loads` on a whole span: one value, then only whitespace. -/
def jsonParse (s : String) : Option QVal :=
  match jsonVal (2 * s.data.length + 8) s.data with
  | some (v, rest) => if (rest.dropWhile isJsonWs).isEmpty then some v else none
  | none => none

/-- Python string-literal escapes accepted by the literal evaluator. -/
def pyEsc (c : Char) : Option Char :=
  if c = '\x27' then some '\x27'
  else if c = '"' then some '"'
  else if c = '\\' then some '\\'
  else if c = 'n' then some '\n'
  else if c = 't' then some '\t'
  else if c = 'r' then some '\r'
  else none

/-- Body of a Python string literal with the given quote character. -/
def pyStrGo (q : Char) : List Char → List Char → Option (String × List Char)
  | [], _ => none
  | c :: r, acc =>
      if c = q then some (⟨acc.reverse⟩, r)
      else if c = '\\' then
        match r with
        | e :: r2 =>
            (match pyEsc e with
             | some ec => pyStrGo q r2 (ec :: acc)
             | none => none)
        | [] => none
      else if c.toNat < 32 then none
      else pyStrGo q r (c :: acc)

mutual

/-- One Python literal with leading whitespace (`ast.literal_eval` subset:
dicts with string keys, lists, strings with either quote, integers,
`True`, `False`, `None` — the shapes a query argument can take). -/
def pyLitVal : Nat → List Char → Option (QVal × List Char)
  | 0, _ => none
  | fuel + 1, l =>
      match l.dropWhile isPyWs with
      | '"' :: r => (pyStrGo '"' r []).map (fun p => (QVal.str p.1, p.2))
      | '\x27' :: r => (pyStrGo '\x27' r []).map (fun p => (QVal.str p.1, p.2))
      | '\x7b' :: r =>
          (match r.dropWhile isPyWs with
           | '\x7d' :: r2 => some (QVal.obj [], r2)
           | r1 => (pyDictBody fuel r1).map (fun p => (QVal.obj p.1, p.2)))
      | '[' :: r =>
          (match r.dropWhile isPyWs with
           | ']' :: r2 => some (QVal.arr [], r2)
           | r1 => (pyListBody fuel r1).map (fun p => (QVal.arr p.1, p.2)))
      | 'T' :: 'r' :: 'u' :: 'e' :: r => some (QVal.bool true, r)
      | 'F' :: 'a' :: 'l' :: 's' :: 'e' :: r => some (QVal.bool false, r)
      | 'N' :: 'o' :: 'n' :: 'e' :: r => some (QVal.null, r)
      | '-' :: r => jsonIntAfterDigits true (r.takeWhile Char.isDigit) (r.dropWhile Char.isDigit)
      | r =>
          if (r.headD ' ').isDigit then
            jsonIntAfterDigits false (r.takeWhile Char.isDigit) (r.dropWhile Char.isDigit)
          else none

/-- Dict members `key: v (, key: v)* \x7d` with string-literal keys. -/
def pyDictBody : Nat → List Char → Option (List (String × QVal) × List Char)
  | 0, _ => none
  | fuel + 1, l =>
      match pyLitVal fuel l with
      | some (QVal.str k, r1) =>
          (match r1.dropWhile isPyWs with
           | ':' :: r3 =>
               match pyLitVal fuel r3 with
               | none => none
               | some (v, r4) =>
                   match r4.dropWhile isPyWs with
                   | ',' :: r6 => (pyDictBody fuel r6).map (fun p => ((k, v) :: p.1, p.2))
                   | '\x7d' :: r6 => some ([(k, v)], r6)
                   | _ => none
           | _ => none)
      | _ => none

/-- List elements `v (, v)* ]`. -/
def pyListBody : Nat → List Char → Option (List QVal × List Char)
  | 0, _ => none
  | fuel + 1, l =>
      match pyLitVal fuel l with
      | none => none
      | some (v, r) =>
          match r.dropWhile isPyWs with
          | ',' :: r1 => (pyListBody fuel r1).map (fun p => (v :: p.1, p.2))
          | ']' :: r1 => some ([v], r1)
          | _ => none

end

/-- `ast.literal_eval` on a whole span. -/
def pyLiteralEval (s : String) : Option QVal :=
  match pyLitVal (2 * s.data.length + 8) s.data with
  | some (v, rest) => if (rest.dropWhile isPyWs).isEmpty then some v else none
  | none => none

/-- Decode chain of the balanced-span find/count branch (lines 583-596):
`json.loads(clean)`, then `json.loads(original)`, then
`ast.literal_eval(original)`, then `\x7b\x7d`. -/
def chainFindArg (span : String) : QVal :=
  match jsonParse (fixBareKeys span) with
  | some v => v
  | none =>
      match jsonParse span with
      | some v => v
      | none =>
          match pyLiteralEval span with
          | some v => v
          | none => QVal.obj []

/-- Decode chain of the balanced-span aggregate branch (lines 640-655). -/
def chainAggArg (span : String) : QVal :=
  match jsonParse (fixBareKeys span) with
  | some v => v
  | none =>
      match jsonParse span with
      | some v => v
      | none =>
          match pyLiteralEval span with
          | some v => v
          | none => QVal.arr []

/-- Decode chain of the unbalanced-span find fallback (lines 598-606):
only `json.loads(clean)`, else `\x7b\x7d`. -/
def fallbackChainFind (span : String) : QVal :=
  match jsonParse (fixBareKeys span) with
  | some v => v
  | none => QVal.obj []

/-- Decode chain of the unbalanced-span aggregate fallback (lines 656-665). -/
def fallbackChainAgg (span : String) : QVal :=
  match jsonParse (fixBareKeys span) with
  | some v => v
  | none => QVal.arr []

/-- Bracket-balancing scan (lines 568-577 / 625-634): `o`/`cl` are the
bracket pair, `i` the enumeration index, `depth` the `stack` length.
Returns the relative end of the balanced span, `none` when the loop ends
without the counter returning to zero, and `Except.error` for the
`stack.pop()`-on-empty `IndexError` Python would raise. -/
def braceScan (o cl : Char) : List Char → Nat → Nat → Except Unit (Option Nat)
  | [], _, _ => .ok none
  | c :: rest, i, depth =>
      if c = o then braceScan o cl rest (i + 1) (depth + 1)
      else if c = cl then
        match depth with
        | 0 => .error ()
        | 1 => .ok (some (i + 1))
        | Nat.succ (Nat.succ d) => braceScan o cl rest (i + 1) (d + 1)
      else braceScan o cl rest (i + 1) depth

/-- Find/count argument extraction from the text after the opening
parenthesis (lines 557-606): locate the first `\x7b`, scan for the balanced
span, fall back to the span ending at the last `\x7d`, default to `\x7b\x7d`. -/
def findArgExtract (content : List Char) : Except Unit QVal :=
  if hasChar content '\x7b' then
    let start := idxOfC content '\x7b'
    match braceScan '\x7b' '\x7d' (content.drop start) 0 0 with
    | .error () => .error ()
    | .ok (some relEnd) => .ok (chainFindArg ⟨pySlice content start (start + relEnd)⟩)
    | .ok none => .ok (fallbackChainFind ⟨pySlice content start (rfindP1 content '\x7d')⟩)
  else .ok (QVal.obj [])

/-- Aggregate pipeline extraction (lines 618-665), same shape with `[`/`]`
and an empty-list default. -/
def aggArgExtract (content : List Char) : Except Unit QVal :=
  if hasChar content '[' then
    let start := idxOfC content '['
    match braceScan '[' ']' (content.drop start) 0 0 with
    | .error () => .error ()
    | .ok (some relEnd) => .ok (chainAggArg ⟨pySlice content start (start + relEnd)⟩)
    | .ok none => .ok (fallbackChainAgg ⟨pySlice content start (rfindP1 content ']')⟩)
  else .ok (QVal.arr [])

/-- Operation alternation `(find|aggregate|countDocuments|count)\(` at a
fixed position, in the source's alternation order. -/
def opAfterDot (l : List Char) : Option (String × List Char) :=
  if charsPre ("find(").data l then some ("find", l.drop 5)
  else if charsPre ("aggregate(").data l then some ("aggregate", l.drop 10)
  else if charsPre ("countDocuments(").data l then some ("countDocuments", l.drop 15)
  else if charsPre ("count(").data l then some ("count", l.drop 6)
  else none

/-- One attempt of `re.search(r'db\.([a-zA-Z0-9_]+)\.(find|aggregate|countDocuments|count)\(', t)`
at a fixed position. -/
def matchCmdAt (l : List Char) : Option (String × String × List Char) :=
  match l with
  | 'd' :: 'b' :: '.' :: r =>
      let idt := r.takeWhile isCollChar
      if idt.isEmpty then none
      else
        match r.dropWhile isCollChar with
        | '.' :: r2 => (opAfterDot r2).map (fun p => ((⟨idt⟩ : String), p.1, p.2))
        | _ => none
  | _ => none

/-- Leftmost command match in the whole text (the regex `search` scan). -/
def findCmd : List Char → Option (String × String × List Char)
  | [] => none
  | l@(_ :: t) =>
      match matchCmdAt l with
      | some res => some res
      | none => findCmd t

/-- Whole recovery parse: command location, then argument extraction along
the operation's branch. `Except.error` marks the only conceivable runtime
exception (the scan's `stack.pop()` on an empty stack), `.ok none` the
"Could not identify MongoDB command" outcome. -/
def recoverCommand (text : String) : Except Unit (Option (String × String × QVal)) :=
  match findCmd text.data with
  | none => .ok none
  | some (coll, op, content) =>
      if op = "aggregate" then (aggArgExtract content).map (fun v => some (coll, op, v))
      else (findArgExtract content).map (fun v => some (coll, op, v))

/-- Decode stages of the balanced-span chain, for stating in which order
the source attempts them. -/
inductive DecodeStage where
  | rewrittenJson
  | exactJson
  | literalEval
  | emptyDefault
deriving DecidableEq

/-- Observational trace of `chainFindArg`: the decode attempts in source
order (lines 583-596), each tagged with whether it succeeded. -/
def findArgAttempts (span : String) : List (DecodeStage × Bool) :=
  match jsonParse (fixBareKeys span) with
  | some _ => [(.rewrittenJson, true)]
  | none =>
      (.rewrittenJson, false) ::
      match jsonParse span with
      | some _ => [(.exactJson, true)]
      | none =>
          (.exactJson, false) ::
          match pyLiteralEval span with
          | some _ => [(.literalEval, true)]
          | none => [(.literalEval, false), (.emptyDefault, true)]

/-! ## Relevance thresholds, prompt builder and the pre-LLM decision
(`PromptBuilder.build_context` / `get_reliable_prompt`,
`MongoDBChatAgent.process_query` lines 467-523)

Similarity scores come from the external embedding model; the ranked
`(collection, score)` list produced by `search_collections` is therefore a
parameter. Scores are modelled as rationals; the source's float literals
`0.3` and `0.2` appear as `mkRat 3 10` and `mkRat 2 10`. The embeddings
cache (`doc_count` and static fields per collection) and the live
`get_collection_sample_fields` read are parameters as well. -/

/-- Ranked collections, best first, as returned by `search_collections`. -/
abbrev RankedList := List (String × ℚ)

/-- Embeddings-cache view needed by `build_context`:
collection ↦ (doc_count, static fields). -/
abbrev EmbDb := List (String × Nat × List (String × String))

/-- Live sample fields: collection ↦ (field, type, truncated sample). -/
abbrev LiveFields := String → List (String × String × String)

/-- Field line of the live branch of `build_context`. -/
def fieldLineLive (f : String × String × String) : String :=
  "  - `" ++ f.1 ++ "`: " ++ f.2.1 ++ " (e.g., " ++ f.2.2 ++ ")\n"

/-- Field line of the static fallback branch of `build_context`. -/
def fieldLineStatic (f : String × String) : String :=
  "  - `" ++ f.1 ++ "`: " ++ f.2 ++ "\n"

/-- One collection section of the context (lines 245-261). -/
def sectionFor (embDb : EmbDb) (live : LiveFields) (name : String) : String :=
  let info := ((embDb.find? (fun p => p.1 = name)).map (fun p => p.2)).getD (0, [])
  let actual := live name
  "### Collection: `" ++ name ++ "`\n"
    ++ "Document Count: " ++ toString info.1 ++ "\n"
    ++ "\n**ACTUAL Fields (verified from sample document):**\n"
    ++ (if actual.isEmpty then String.join ((info.2.take 5).map fieldLineStatic)
        else String.join (actual.map fieldLineLive))
    ++ "\n"

/-- The context loop (lines 239-261): collections scoring below `0.2`
among the ranked top-K are skipped (`continue`). -/
def buildSections (embDb : EmbDb) (live : LiveFields) : RankedList → String
  | [] => ""
  | (n, s) :: rest =>
      (if s < mkRat 2 10 then "" else sectionFor embDb live n) ++ buildSections embDb live rest

/-- `PromptBuilder.build_context`: the `NO_RELEVANT_COLLECTION` sentinel
when nothing is ranked or the top score is below `0.3`, else the header
plus the per-collection sections. -/
def buildContext (ranked : RankedList) (embDb : EmbDb) (live : LiveFields) : String :=
  match ranked with
  | [] => "NO_RELEVANT_COLLECTION"
  | (_, topScore) :: _ =>
      if topScore < mkRat 3 10 then "NO_RELEVANT_COLLECTION"
      else
        "## Available MongoDB Collections\n\n"
          ++ "⚠️ IMPORTANT: Use ONLY the field names shown below. Do NOT invent field names.\n\n"
          ++ buildSections embDb live ranked

/-- System prompt of the decline pair (lines 270-273). -/
def declineSystemPrompt : String :=
  "You are a MongoDB query assistant. If the user asks something not related to the database, politely decline and suggest a relevant database query."

/-- User prompt of the decline pair (lines 270-273). -/
def declineUserPrompt (q : String) : String :=
  "User asked: " ++ q ++ "\n\nThis question doesn\x27t seem related to the database. Please ask something about the data in the MongoDB collections."

/-- The expert system prompt (lines 275-307), transcribed verbatim. -/
def expertSystemPrompt : String :=
  "You are a MongoDB query expert. Your ONLY job is to:\n"
    ++ "1. Generate MongoDB queries based on user questions\n"
    ++ "2. Use ONLY the collections and fields provided\n"
    ++ "3. Return ONLY valid MongoDB query syntax\n"
    ++ "4. Do NOT make up field names or collections\n"
    ++ "5. Do NOT attempt data modifications (no $set, $unset, deleteOne, deleteMany, drop, etc.)\n"
    ++ "6. Do NOT hallucinate - if you can\x27t construct a valid query, say \"UNABLE_TO_QUERY\"\n"
    ++ "7. For simple key-value lookups use: db.collection.find(\x7b...\x7d)\n"
    ++ "8. For SORTING, LIMITING (top N), GROUPING: Use db.collection.aggregate([...])\n"
    ++ "9. For counting: Use db.collection.countDocuments(\x7b...\x7d)\n"
    ++ "10. For JOINING data (e.g. Orders + Customers), you MUST use this pattern:\n"
    ++ "    [\n"
    ++ "      \x7b$match: ...\x7d,\n"
    ++ "      \x7b$lookup: \x7bfrom: \"customers\", localField: \"customerId\", foreignField: \"_id\", as: \"customer_docs\"\x7d\x7d,\n"
    ++ "      \x7b$unwind: \"$customer_docs\"\x7d,\n"
    ++ "      \x7b$project: \x7b\n"
    ++ "         _id: 0,\n"
    ++ "         order_status: \"$status\",\n"
    ++ "         amount: 1,\n"
    ++ "         customer_name: \"$customer_docs.name\",\n"
    ++ "         customer_email: \"$customer_docs.email\"\n"
    ++ "      \x7d\x7d\n"
    ++ "    ]\n"
    ++ "11. IF user asks for a field (e.g. \x27customerName\x27) that is NOT in the collection\x27s schema, you MUST use $lookup -> $unwind -> $project to fetch it.\n"
    ++ "\n"
    ++ "CRITICAL RULES:\n"
    ++ "- NEVER suggest DROP, DELETE, UPDATE, or MODIFY operations\n"
    ++ "- NEVER create new collections or fields\n"
    ++ "- If the user asks for \"Top N\", \"Bottom N\", or \"Sort By\", you MUST use aggregate with $sort and $limit\n"
    ++ "- If user asks for data modification, respond: \"MODIFICATION_NOT_ALLOWED: Cannot modify database\"\n"
    ++ "- If user asks something unrelated to database, respond: \"OUT_OF_SCOPE: This question is not related to the database\"\n"
    ++ "\n"
    ++ "Return ONLY the MongoDB query code, nothing else."

/-- The expert user prompt (lines 309-315). -/
def expertUserPrompt (ctx q : String) : String :=
  "Available Database Schema:\n" ++ ctx ++ "\n\nUser Question: \"" ++ q ++ "\"\n\n"
    ++ "Generate the MongoDB query to answer this question. Use ONLY the collections and fields shown above.\n"
    ++ "Return ONLY the query code, no explanation."

/-- `PromptBuilder.get_reliable_prompt`: the decline pair when the context
is the sentinel, else the expert pair. -/
def getReliablePrompt (ranked : RankedList) (embDb : EmbDb) (live : LiveFields) (q : String) :
    String × String :=
  let ctx := buildContext ranked embDb live
  if ctx = "NO_RELEVANT_COLLECTION" then (declineSystemPrompt, declineUserPrompt q)
  else (expertSystemPrompt, expertUserPrompt ctx q)

/-- How far `process_query` gets before (or instead of) calling the LLM. -/
inductive AgentDecision where
  | modificationBlocked
  | templateJoin
  | declinedOutOfScope
  | llmCalled
deriving DecidableEq

/-- Question-level prohibited words (line 468). -/
def questionGateWords : List String :=
  ["drop", "delete", "update", "insert", "modify", "remove", "truncate", "alter"]

/-- Pre-LLM control flow of `process_query` (lines 467-523): the
question-word gate, the order/customer join template, then
`get_reliable_prompt` followed by the `OUT_OF_SCOPE`-substring test that
guards the `llm.generate` call. `llmCalled` means the flow reaches the
LLM round trip (whose response handling is beyond this boundary). -/
def processDecision (ranked : RankedList) (embDb : EmbDb) (live : LiveFields) (q : String) :
    AgentDecision :=
  if questionGateWords.any (fun w => strHas (pyLower q) w) then .modificationBlocked
  else if strHas (pyLower q) "order"
      && anyHas (pyLower q) ["customer", "user", "client"]
      && anyHas (pyLower q) ["name", "email", "detail", "info"] then .templateJoin
  else
    let sp := getReliablePrompt ranked embDb live q
    if strHas sp.1 "OUT_OF_SCOPE" || strHas sp.2 "OUT_OF_SCOPE" then .declinedOutOfScope
    else .llmCalled

/-! ## Concrete inputs used by the claim theorems and witnesses -/

/-- Aggregate pipeline `[\x7b"$set": \x7b"x": 1\x7d\x7d]`, a mutating argument. -/
def setPipeline : QVal :=
  QVal.arr [QVal.obj [("$set", QVal.obj [("x", QVal.num 1)])]]

/-- Find filter whose value contains the prohibited token `deleteOne`. -/
def deleteOneQuery : QVal :=
  QVal.obj [("note", QVal.str "deleteOne")]

/-- Find filter whose value contains `drop` inside an innocent word. -/
def dropmoreQuery : QVal :=
  QVal.obj [("city", QVal.str "dropmore")]

/-- Metadata with a single collection and no amount-like or date-like field. -/
def mdPlain : Metadata :=
  [("customers", [("name", "str")])]

/-- Metadata with an `orders` collection carrying a date field, an amount
field and a status field. -/
def mdOrders : Metadata :=
  [("orders", [("orderDate", "date"), ("amount", "int"), ("status", "str")])]

/-- Embeddings-cache view with one relevant collection, for the ranker
theorems. -/
def embDbC3 : EmbDb :=
  [("customers", 3, [("name", "str")])]

/-- Embeddings-cache view that also contains a weakly-scoring collection. -/
def embDbC3w : EmbDb :=
  [("customers", 3, [("name", "str")]), ("weak", 7, [("w", "str")])]

/-- Live sample fields for the ranker theorems. -/
def liveC3 : LiveFields :=
  fun _ => [("name", "str", "Alice")]

/-- Valid argument span whose value string contains a bare-key-looking
pattern, so the rewrite corrupts it. -/
def spanValueColon : String :=
  "\x7b\"a\": \"b, c: d\"\x7d"

/-! ## Helper lemmas -/

/-- The gate fires whenever any listed token occurs in the lowered
serialization. -/
theorem modGate_of_mem (s op : String) (hmem : op ∈ prohibitedOps)
    (h : strHas (pyLower s) op = true) : modGate s = true := by
  unfold modGate
  exact List.any_eq_true.mpr ⟨op, hmem, h⟩

/-- Stringifying the `_id` binding commutes with the first-binding lookup. -/
theorem lookupStr_map_id (fs : List (String × QVal)) :
    lookupStr "_id" (fs.map (fun kv => if kv.1 = "_id" then (kv.1, QVal.str (pyStrVal kv.2)) else kv))
      = (lookupStr "_id" fs).map (fun v => QVal.str (pyStrVal v)) := by
  induction fs with
  | nil => rfl
  | cons kv rest ih =>
      obtain ⟨k, v⟩ := kv
      by_cases hk : k = "_id"
      · subst hk
        simp [lookupStr]
      · have hcell : (if (k, v).1 = "_id" then ((k, v).1, QVal.str (pyStrVal (k, v).2)) else (k, v))
            = (k, v) := by simp [hk]
        simp only [List.map_cons, hcell]
        simp [lookupStr, hk, ih]

/-- A key absent from the dict has no binding. -/
theorem lookupStr_none_of_hasKey_false (k : String) (fs : List (String × QVal))
    (h : hasKeyB k fs = false) : lookupStr k fs = none := by
  induction fs with
  | nil => rfl
  | cons kv rest ih =>
      simp only [hasKeyB, List.any_cons, Bool.or_eq_false_iff] at h
      simp only [lookupStr, h.1]
      rw [if_neg (by simpa using h.1)]
      exact ih (by simpa [hasKeyB] using h.2)

/-! ## Claim theorems -/

/-- Claim C1, counterexample: an aggregate pipeline whose serialized text
contains `$set` is executed — the dispatcher issues the store call without
any safety check — so the gate is not applied to the aggregate path,
contrary to the claim that every operation kind is checked identically. -/
theorem c1_counterexample :
    strHas (pyLower (pyRepr setPipeline)) "$set" = true
      ∧ aggregateDispatch setPipeline = some (StoreAction.aggregateCall setPipeline) :=
  ⟨rfl, rfl⟩

/-- Claim C1, amended: only the find path runs the safety gate before its
store call — it rejects whenever the lowercased serialized argument
contains one of the all-lowercase tokens `$set`, `$unset`, `$push`,
`$pull`, `drop` (the four mixed-case method tokens can never match a
lowercased text) — while the count and aggregate paths always reach the
store with no such check. -/
theorem c1_amended :
    (∀ (q : QVal) (op : String),
        op ∈ (["$set", "$unset", "$push", "$pull", "drop"] : List String) →
        strHas (pyLower (pyRepr q)) op = true → findDispatch q = none)
      ∧ (∀ q : QVal, countDispatch q = some (StoreAction.countCall q))
      ∧ (∀ p : QVal, aggregateDispatch p = some (StoreAction.aggregateCall p)) := by
  refine ⟨?_, fun q => rfl, fun p => rfl⟩
  intro q op hmem h
  have hop : op ∈ prohibitedOps := by
    fin_cases hmem <;> decide
  have hg : modGate (pyRepr q) = true := modGate_of_mem _ _ hop h
  simp [findDispatch, hg]

/-- Witness for the amended C1 theorem at a concrete rejected find filter. -/
theorem c1_amended_witness :
    strHas (pyLower (pyRepr (QVal.obj [("note", QVal.str "drop the table")]))) "drop" = true
      ∧ findDispatch (QVal.obj [("note", QVal.str "drop the table")]) = none :=
  ⟨rfl, c1_amended.1 (QVal.obj [("note", QVal.str "drop the table")]) "drop" (by decide) rfl⟩

/-- Claim C10, counterexample: a find filter whose value contains the
prohibited token `deleteOne` as a raw substring is NOT rejected — the gate
compares against the lowercased serialization, which never contains the
mixed-case token — so the store call is made. -/
theorem c10_counterexample :
    strHas (pyRepr deleteOneQuery) "deleteOne" = true
      ∧ findDispatch deleteOneQuery = some (StoreAction.findCall deleteOneQuery) :=
  ⟨rfl, rfl⟩

/-- Claim C10, amended: the find-path gate matches each prohibited token
as a raw substring of the lowercased serialized query, so every read-only
find query whose serialization contains an all-lowercase token such as
`drop` — even inside an innocent field value — is rejected with the error
descriptor and no store call; the four mixed-case method tokens can never
match. -/
theorem c10_amended :
    ∀ q : QVal, strHas (pyLower (pyRepr q)) "drop" = true → findDispatch q = none := by
  intro q h
  have hg : modGate (pyRepr q) = true := modGate_of_mem _ _ (by decide) h
  simp [findDispatch, hg]

/-- Witness for the amended C10 theorem: a filter value containing `drop`
inside an innocent word is rejected before any store call. -/
theorem c10_amended_witness :
    strHas (pyLower (pyRepr dropmoreQuery)) "drop" = true
      ∧ findDispatch dropmoreQuery = none :=
  ⟨rfl, c10_amended dropmoreQuery rfl⟩

/-- Claim C2, counterexample: an aggregate result document carrying a
native ObjectId leaves the dispatcher unconverted — the aggregate path
(line 668) applies no identifier conversion at all. -/
theorem c2_counterexample :
    containsOidList (aggregateResults [QVal.obj [("grp", QVal.num 3), ("_id", QVal.oid "64ab0c")]])
      = true :=
  rfl

/-- Claim C2, amended: only the find path converts identifiers and only
the top-level `_id` binding of each document (which therefore always
leaves as a string), while aggregate results are returned unchanged apart
from the 10-document cap; other ObjectId-valued fields are untouched. -/
theorem c2_amended :
    (∀ (docs : List QVal) (d : QVal), d ∈ convertIds docs →
        ∀ v : QVal, lookupDocField "_id" d = some v → ∃ s, v = QVal.str s)
      ∧ (∀ rs : List QVal, aggregateResults rs = rs.take 10) := by
  refine ⟨?_, fun rs => rfl⟩
  intro docs d hd v hv
  rw [convertIds, List.mem_map] at hd
  obtain ⟨d0, -, rfl⟩ := hd
  cases d0
  case obj fs =>
      by_cases hk : hasKeyB "_id" fs
      · rw [show convertDoc (QVal.obj fs)
              = QVal.obj (fs.map (fun kv => if kv.1 = "_id" then (kv.1, QVal.str (pyStrVal kv.2)) else kv))
            from by simp [convertDoc, hk]] at hv
        rw [lookupDocField, lookupStr_map_id] at hv
        obtain ⟨w, -, rfl⟩ := Option.map_eq_some'.mp hv
        exact ⟨pyStrVal w, rfl⟩
      · rw [show convertDoc (QVal.obj fs) = QVal.obj fs from by
              simp [convertDoc, Bool.of_not_eq_true hk]] at hv
        rw [lookupDocField,
            lookupStr_none_of_hasKey_false "_id" fs (Bool.of_not_eq_true hk)] at hv
        exact absurd hv (by simp)
  all_goals simp [convertDoc, lookupDocField] at hv

/-- Witness for the amended C2 theorem at a one-document find result. -/
theorem c2_amended_witness :
    ∃ s, QVal.str "64ab0c" = QVal.str s :=
  c2_amended.1 [QVal.obj [("_id", QVal.oid "64ab0c")]] (QVal.obj [("_id", QVal.str "64ab0c")])
    (List.Mem.head _) (QVal.str "64ab0c") rfl

/-- Claim C4, counterexample: the question `lowest` over a collection with
no amount-like field compiles to the EMPTY pipeline — the `min_analysis`
branch emits nothing and no `\x7blimit: 10\x7d` stage is substituted — so the
claimed never-empty invariant fails. -/
theorem c4_counterexample :
    (generateQuery mdPlain "lowest").1 = [] :=
  rfl

/-- Claim C4, amended: the compiled pipeline can be empty (for
`min_analysis`/`max_analysis` without product vocabulary, and for
`average`, when no amount-like field exists; the `\x7blimit: 10\x7d`
substitution happens only in the exception fallback of
`generate_mongo_query`, which total generation never triggers). For every
question whose intent resolves to the default `list`, the pipeline is
non-empty and ends in a sort+limit pair. -/
theorem c4_amended :
    ∀ (md : Metadata) (q : String), determineIntent (pyLower q) = "list" →
      ∃ pre sortSpec, (generateQuery md q).1
        = pre ++ [QVal.obj [("$sort", sortSpec)], QVal.obj [("$limit", QVal.num 10)]] := by
  intro md q h
  have hi : intentStages md (pyLower q) (primaryCollection md q) (determineIntent (pyLower q))
      = listStages md (primaryCollection md q) := by
    rw [h]
    exact rfl
  cases hdf : findDateFields md (primaryCollection md q) with
  | nil =>
      exact ⟨matchPartOf md q, QVal.obj [("_id", QVal.num (-1))], by
        simp only [generateQuery, hi, listStages, hdf]⟩
  | cons f fs =>
      exact ⟨matchPartOf md q, QVal.obj [(f, QVal.num (-1))], by
        simp only [generateQuery, hi, listStages, hdf]⟩

/-- Witness for the amended C4 theorem at a no-vocabulary question. -/
theorem c4_amended_witness :
    determineIntent (pyLower "hello") = "list"
      ∧ ∃ pre sortSpec, (generateQuery mdPlain "hello").1
        = pre ++ [QVal.obj [("$sort", sortSpec)], QVal.obj [("$limit", QVal.num 10)]] :=
  ⟨rfl, c4_amended mdPlain "hello" rfl⟩

/-- Claim C5: when the question contains a year `20xx` (first regex match
`y`) and the resolved collection has a first date-like field `f`, the
compiled pipeline starts with a `$match` stage whose first binding
constrains `f` to exactly `$gte datetime(y,1,1)` and `$lt datetime(y+1,1,1)` —
the half-open range `[y-01-01T00:00:00, (y+1)-01-01T00:00:00)`. -/
theorem c5_year_range :
    ∀ (md : Metadata) (q : String) (y : Nat) (f : String) (fs : List String),
      scanYear q.data = some y →
      findDateFields md (primaryCollection md q) = f :: fs →
      ∃ rest tail, (generateQuery md q).1 =
        QVal.obj [("$match", QVal.obj
          ((f, QVal.obj [("$gte", QVal.dt y 1 1), ("$lt", QVal.dt (y + 1) 1 1)]) :: rest))] :: tail := by
  intro md q y f fs hy hdf
  refine ⟨statusBindings md q,
    intentStages md (pyLower q) (primaryCollection md q) (determineIntent (pyLower q)), ?_⟩
  have hdb : dateBindings md q
      = [(f, QVal.obj [("$gte", QVal.dt y 1 1), ("$lt", QVal.dt (y + 1) 1 1)])] := by
    simp [dateBindings, hy, hdf]
  simp [generateQuery, matchPartOf, matchBindings, hdb]

/-- Witness for the C5 theorem at `orders in 2023` over `mdOrders`. -/
theorem c5_year_range_witness :
    scanYear ("orders in 2023").data = some 2023
      ∧ ∃ rest tail, (generateQuery mdOrders "orders in 2023").1 =
        QVal.obj [("$match", QVal.obj
          (("orderDate", QVal.obj [("$gte", QVal.dt 2023 1 1), ("$lt", QVal.dt 2024 1 1)]) :: rest))] :: tail :=
  ⟨rfl, c5_year_range mdOrders "orders in 2023" 2023 "orderDate" [] rfl rfl⟩

/-- Claim C9: when the keyword ladder classifies a question as plain `max`
or `min`, the pipeline assembler has no dedicated branch for it — the
trailing `else` emits the `list` pipeline (optional match, then sort by
the first date field descending or `_id` descending, then limit 10) — and
no stage of the compiled pipeline carries a `$group` key, so no
`$min`/`$max` group stage is ever produced for these intents. -/
theorem c9_no_plain_min_max_handler :
    ∀ (md : Metadata) (q : String),
      determineIntent (pyLower q) = "max" ∨ determineIntent (pyLower q) = "min" →
      (generateQuery md q).1 = matchPartOf md q ++ listStages md (primaryCollection md q)
        ∧ ∀ st ∈ (generateQuery md q).1, hasGroupKey st = false := by
  intro md q h
  have hi : intentStages md (pyLower q) (primaryCollection md q) (determineIntent (pyLower q))
      = listStages md (primaryCollection md q) := by
    rcases h with h | h <;> (rw [h]; exact rfl)
  refine ⟨by simp only [generateQuery, hi], ?_⟩
  intro st hst
  simp only [generateQuery, hi] at hst
  rw [List.mem_append] at hst
  rcases hst with hst | hst
  · unfold matchPartOf at hst
    by_cases hms : (matchBindings md q).isEmpty
    · rw [if_pos hms] at hst
      exact absurd hst (by simp)
    · rw [if_neg hms] at hst
      simp only [List.mem_singleton] at hst
      subst hst
      rfl
  · unfold listStages at hst
    cases hdf : findDateFields md (primaryCollection md q) with
    | nil =>
        rw [hdf] at hst
        simp only [List.mem_cons, List.mem_singleton, List.not_mem_nil, or_false] at hst
        rcases hst with rfl | rfl <;> rfl
    | cons f fs =>
        rw [hdf] at hst
        simp only [List.mem_cons, List.mem_singleton, List.not_mem_nil, or_false] at hst
        rcases hst with rfl | rfl <;> rfl

/-- Witness for the C9 theorem at the question `max`. -/
theorem c9_no_plain_min_max_handler_witness :
    (generateQuery mdOrders "max").1
        = matchPartOf mdOrders "max" ++ listStages mdOrders (primaryCollection mdOrders "max")
      ∧ ∀ st ∈ (generateQuery mdOrders "max").1, hasGroupKey st = false :=
  c9_no_plain_min_max_handler mdOrders "max" (Or.inl rfl)

/-- The scan never raises once the depth is positive: each pop happens on
a non-empty stack. -/
theorem braceScan_ne_error (o cl : Char) :
    ∀ (l : List Char) (i d : Nat), 1 ≤ d → braceScan o cl l i d ≠ Except.error () := by
  intro l
  induction l with
  | nil => intro i d _; simp [braceScan]
  | cons c rest ih =>
      intro i d hd
      simp only [braceScan]
      by_cases hco : c = o
      · rw [if_pos hco]
        exact ih (i + 1) (d + 1) (by omega)
      · rw [if_neg hco]
        by_cases hcc : c = cl
        · rw [if_pos hcc]
          cases d with
          | zero => omega
          | succ d' =>
              cases d' with
              | zero => simp
              | succ d'' => exact ih (i + 1) (d'' + 1) (by omega)
        · rw [if_neg hcc]
          exact ih (i + 1) d hd

/-- Dropping up to the first occurrence of `c` lands on `c`. -/
theorem drop_idxOfC (l : List Char) (c : Char) (h : hasChar l c = true) :
    ∃ t, l.drop (idxOfC l c) = c :: t := by
  induction l with
  | nil => simp [hasChar] at h
  | cons x r ih =>
      by_cases hx : x = c
      · subst hx
        exact ⟨r, by simp [idxOfC]⟩
      · have hr : hasChar r c = true := by
          simpa [hasChar, List.any_cons, hx] using h
        obtain ⟨t, ht⟩ := ih hr
        refine ⟨t, ?_⟩
        simpa [idxOfC, hx] using ht

/-- Worker fact for `rfindP1`: with no occurrence the accumulator passes
through. -/
theorem rfindP1_go_of_absent (c : Char) :
    ∀ (l : List Char) (i acc : Nat), hasChar l c = false → rfindP1.go c l i acc = acc := by
  intro l
  induction l with
  | nil => intro i acc _; rfl
  | cons x r ih =>
      intro i acc h
      have hx : (x = c) = False := by
        by_contra hne
        simp [hasChar, of_eq_true (by simpa using hne)] at h
      have hxx : ¬ x = c := by simp [hx]
      have hr : hasChar r c = false := by
        simpa [hasChar, List.any_cons, hxx] using h
      simp only [rfindP1.go, if_neg hxx]
      exact ih (i + 1) acc hr

/-- Python `rfind` returns `-1` (so the slice bound is `0`) when the
character is absent. -/
theorem rfindP1_eq_zero (l : List Char) (c : Char) (h : hasChar l c = false) :
    rfindP1 l c = 0 := by
  unfold rfindP1
  exact rfindP1_go_of_absent c l 0 0 h

/-- The find-path extraction never raises. -/
theorem findArgExtract_ne_error (content : List Char) :
    findArgExtract content ≠ Except.error () := by
  by_cases hb : hasChar content '\x7b'
  · obtain ⟨t, ht⟩ := drop_idxOfC content '\x7b' hb
    have hstep : braceScan '\x7b' '\x7d' (content.drop (idxOfC content '\x7b')) 0 0
        = braceScan '\x7b' '\x7d' t 1 1 := by
      rw [ht]; simp [braceScan]
    have hscan := braceScan_ne_error '\x7b' '\x7d' t 1 1 (le_refl 1)
    simp only [findArgExtract, hb, if_true]
    rw [hstep]
    cases hres : braceScan '\x7b' '\x7d' t 1 1 with
    | error e => exact absurd (by cases e; exact hres) hscan
    | ok r => cases r <;> simp
  · simp [findArgExtract, hb]

/-- The aggregate-path extraction never raises. -/
theorem aggArgExtract_ne_error (content : List Char) :
    aggArgExtract content ≠ Except.error () := by
  by_cases hb : hasChar content '['
  · obtain ⟨t, ht⟩ := drop_idxOfC content '[' hb
    have hstep : braceScan '[' ']' (content.drop (idxOfC content '[')) 0 0
        = braceScan '[' ']' t 1 1 := by
      rw [ht]; simp [braceScan]
    have hscan := braceScan_ne_error '[' ']' t 1 1 (le_refl 1)
    simp only [aggArgExtract, hb, if_true]
    rw [hstep]
    cases hres : braceScan '[' ']' t 1 1 with
    | error e => exact absurd (by cases e; exact hres) hscan
    | ok r => cases r <;> simp
  · simp [aggArgExtract, hb]

/-- Claim C8: when the text after the operation has an unterminated
bracket structure, the parser does not throw — the only conceivable
exception, the scan's pop on an empty stack, is unreachable on either
path — and the argument is taken from the span ending at the last closing
bracket of the remaining text; when no closing bracket exists at all, the
argument becomes the empty default: `\x7b\x7d` for find/count, `[]` for
aggregate. -/
theorem c8_unterminated_graceful :
    ∀ content : List Char,
      findArgExtract content ≠ Except.error ()
      ∧ aggArgExtract content ≠ Except.error ()
      ∧ (hasChar content '\x7b' = true →
          braceScan '\x7b' '\x7d' (content.drop (idxOfC content '\x7b')) 0 0 = .ok none →
          findArgExtract content
            = .ok (fallbackChainFind ⟨pySlice content (idxOfC content '\x7b') (rfindP1 content '\x7d')⟩))
      ∧ (hasChar content '\x7b' = true → hasChar content '\x7d' = false →
          braceScan '\x7b' '\x7d' (content.drop (idxOfC content '\x7b')) 0 0 = .ok none →
          findArgExtract content = .ok (QVal.obj []))
      ∧ (hasChar content '[' = true → hasChar content ']' = false →
          braceScan '[' ']' (content.drop (idxOfC content '[')) 0 0 = .ok none →
          aggArgExtract content = .ok (QVal.arr [])) := by
  intro content
  refine ⟨findArgExtract_ne_error content, aggArgExtract_ne_error content, ?_, ?_, ?_⟩
  · intro hb hscan
    simp only [findArgExtract, hb, if_true]
    rw [hscan]
  · intro hb hc hscan
    simp only [findArgExtract, hb, if_true]
    rw [hscan, rfindP1_eq_zero content '\x7d' hc]
    have hslice : pySlice content (idxOfC content '\x7b') 0 = [] := by
      simp [pySlice, Nat.zero_sub]
    rw [hslice]
    rfl
  · intro hb hc hscan
    simp only [aggArgExtract, hb, if_true]
    rw [hscan, rfindP1_eq_zero content ']' hc]
    have hslice : pySlice content (idxOfC content '[') 0 = [] := by
      simp [pySlice, Nat.zero_sub]
    rw [hslice]
    rfl

/-- Witness for the C8 theorem at two concrete unterminated texts. -/
theorem c8_unterminated_graceful_witness :
    findArgExtract ("\x7b\"a\": 1").data = .ok (QVal.obj [])
      ∧ aggArgExtract ("[1, 2").data = .ok (QVal.arr []) :=
  ⟨(c8_unterminated_graceful ("\x7b\"a\": 1").data).2.2.2.1 rfl rfl rfl,
   (c8_unterminated_graceful ("[1, 2").data).2.2.2.2 rfl rfl rfl⟩

/-- Claim C6, counterexample: on the span `\x7b"a": "b, c: d"\x7d` the exact
span decodes — so, in the claim's order, stage (i) would succeed and no
later stage would be attempted — yet the source's first decode attempt is
the bare-key-REWRITTEN span (which fails, the rewrite having corrupted the
value string), and the exact span is only attempted second: the attempt
order is the reverse of the claimed (i)-before-(ii). -/
theorem c6_counterexample :
    jsonParse spanValueColon = some (QVal.obj [("a", QVal.str "b, c: d")])
      ∧ findArgAttempts spanValueColon
        = [(DecodeStage.rewrittenJson, false), (DecodeStage.exactJson, true)] :=
  ⟨rfl, rfl⟩

/-- Claim C6, amended: the chain attempts, in order, (i) `json.loads` on
the bare-key-rewritten span, (ii) `json.loads` on the exact span, (iii)
`ast.literal_eval` on the exact span, (iv) the empty default — the spec's
first two stages swapped — each later stage only if the prior failed; for
a syntactically valid quoted-key argument the decoded value is still
reproduced: when the rewrite leaves the span unchanged the first attempt
succeeds with that value, and when the rewrite corrupts the span the
decode falls back to the exact span. -/
theorem c6_amended :
    (∀ (s : String) (v : QVal), fixBareKeys s = s → jsonParse s = some v →
        chainFindArg s = v ∧ chainAggArg s = v)
      ∧ (∀ (s : String) (v : QVal), jsonParse (fixBareKeys s) = none → jsonParse s = some v →
          chainFindArg s = v ∧ chainAggArg s = v)
      ∧ (∀ s : String, jsonParse (fixBareKeys s) = none → jsonParse s = none →
          pyLiteralEval s = none → chainFindArg s = QVal.obj [] ∧ chainAggArg s = QVal.arr []) := by
  refine ⟨?_, ?_, ?_⟩
  · intro s v hfix hp
    constructor <;> simp [chainFindArg, chainAggArg, hfix, hp]
  · intro s v hclean hp
    constructor <;> simp [chainFindArg, chainAggArg, hclean, hp]
  · intro s h1 h2 h3
    constructor <;> simp [chainFindArg, chainAggArg, h1, h2, h3]

/-- Witness for the amended C6 theorem at a rewrite-inert quoted-key span. -/
theorem c6_amended_witness :
    fixBareKeys "\x7b\"a\": 1\x7d" = "\x7b\"a\": 1\x7d"
      ∧ jsonParse "\x7b\"a\": 1\x7d" = some (QVal.obj [("a", QVal.num 1)])
      ∧ chainFindArg "\x7b\"a\": 1\x7d" = QVal.obj [("a", QVal.num 1)] :=
  ⟨rfl, rfl, (c6_amended.1 "\x7b\"a\": 1\x7d" (QVal.obj [("a", QVal.num 1)]) rfl rfl).1⟩

/-- Claim C7: the recovery parse of `db.orders.find(\x7bstatus:"pending"\x7d)`
yields collection `orders`, operation `find` and argument
`\x7b"status": "pending"\x7d`; and the bare-key rewrite stage decodes
`\x7bstatus: "completed", amount: \x7b$gt: 100\x7d\x7d` to the equivalent
quoted-key object. -/
theorem c7_recovery_examples :
    recoverCommand "db.orders.find(\x7bstatus:\"pending\"\x7d)"
        = .ok (some ("orders", "find", QVal.obj [("status", QVal.str "pending")]))
      ∧ chainFindArg "\x7bstatus: \"completed\", amount: \x7b$gt: 100\x7d\x7d"
        = QVal.obj [("status", QVal.str "completed"), ("amount", QVal.obj [("$gt", QVal.num 100)])] :=
  ⟨rfl, rfl⟩

/-- Claim C3 (code bug): the short-circuit guard tests the PROMPTS for the
literal `OUT_OF_SCOPE`. The decline prompt pair returned for a
below-threshold top score does not contain that marker, so the flow falls
through to the LLM call; the expert system prompt returned for an
in-scope question always contains it (inside rule texts), so every
in-scope question is declined before the LLM. The below-0.2 drop from the
context does hold. -/
theorem c3_out_of_scope_guard_inverted :
    processDecision [("customers", mkRat 1 10)] embDbC3 liveC3 "what is the weather"
        = AgentDecision.llmCalled
      ∧ processDecision [("customers", mkRat 5 10)] embDbC3 liveC3 "show customers"
        = AgentDecision.declinedOutOfScope
      ∧ strHas (buildContext [("customers", mkRat 5 10), ("weak", mkRat 15 100)] embDbC3w liveC3)
          "weak" = false :=
  ⟨rfl, rfl, rfl⟩
